import Mathlib

/-!
Verification of the TTS notification coordination subsystem of the
multi-agent-observability repository: the message deduplicator / rate
limiter and the queue coordinator, together with the metric-extraction
helper defined in `src/tests/tts/test_metric_extraction.py`.

The deduplicator implementation (`message_deduplicator.py`) and the
queue coordinator are not shipped under `src/` — only their test suites
are — so those components are modelled from the specification text
(section 3, 4.1, 4.2 of the spec).  `extract_metrics` and
`build_metric_hints` are translated directly from the source file
`src/tests/tts/test_metric_extraction.py`.

Time is modelled as a natural number of seconds; the persisted cache
file is modelled as an optional string parsed by a line-based parser.
-/

namespace TTS

/-! ### Character-level string helpers -/

/-- Whitespace test used by message normalization. -/
def isWS (c : Char) : Bool :=
  c == ' ' || c == '\t' || c == '\n' || c == '\r'

/-- Trim leading and trailing whitespace from a character list. -/
def trimChars (l : List Char) : List Char :=
  ((l.dropWhile isWS).reverse.dropWhile isWS).reverse

/-- Boolean test that `needle` occurs at the head of `hay`. -/
def leadsChars : List Char → List Char → Bool
  | [], _ => true
  | _ :: _, [] => false
  | a :: as, b :: bs => a == b && leadsChars as bs

/-- Boolean test that `needle` occurs contiguously somewhere in `hay`. -/
def occursIn (needle : List Char) : List Char → Bool
  | [] => needle.isEmpty
  | b :: bs => leadsChars needle (b :: bs) || occursIn needle bs

/-- Substring test on strings: does `hay` contain `needle`? -/
def strContains (hay needle : String) : Bool :=
  occursIn needle.data hay.data

/-! ### Deduplicator data model

Modelled from the spec: `message_deduplicator.py` is not under `src/`
(only `src/tests/tts/test_message_deduplicator.py` imports it), so the
`MessageRecord` table and `should_speak` are built from the words of
spec sections 3 and 4.1. -/

/-- Modelled from the spec: one `MessageRecord` per distinct
(message, category) pair seen within the retention window
(spec section 3). -/
structure MessageRecord where
  text : String
  category : String
  first_seen : Nat
  last_spoken : Nat
  count : Nat
deriving DecidableEq

/-- Modelled from the spec: the deduplicator state is a mapping from
hash key to `MessageRecord`, here an association list. -/
abbrev DedupState : Type := List (String × MessageRecord)

/-- Modelled from the spec: `normalize` lowercases and trims
whitespace (spec section 4.1). -/
def normalize (s : String) : String :=
  ⟨(trimChars s.data).map Char.toLower⟩

/-- Modelled from the spec: the stable hash key is a pure function of
the category and the normalized message text,
`category + ":" + normalize(message)` (spec section 4.1); an injective
stand-in for `stable_hash` keeps the combined string itself. -/
def messageKey (category message : String) : String :=
  category ++ ":" ++ normalize message

/-- Modelled from the spec: cooldown windows per category, with a
default of 300 seconds for unrecognized categories (spec section 4.1). -/
def category_cooldowns (c : String) : Nat :=
  if c = "session_completion" then 300
  else if c = "session_start" then 300
  else if c = "error" then 60
  else if c = "warning" then 120
  else if c = "completion" then 180
  else if c = "general" then 300
  else 300

/-- Modelled from the spec: retention threshold for the opportunistic
sweep, default 3600 seconds (spec section 4.1). -/
def retention_threshold : Nat := 3600

/-- Modelled from the spec: category inference from free text when the
context supplies none — the substrings "session completed", "error",
"warning", "finished" map to fixed categories in that priority order,
with fallback `general` (spec section 4.1). -/
def infer_category (message : String) : String :=
  let m := normalize message
  if strContains m "session completed" then "session_completion"
  else if strContains m "error" then "error"
  else if strContains m "warning" then "warning"
  else if strContains m "finished" then "completion"
  else "general"

/-- Modelled from the spec: the context either supplies an explicit
category or leaves it to be inferred from the message text. -/
def resolve_category (ctxCategory : Option String) (message : String) : String :=
  match ctxCategory with
  | some c => c
  | none => infer_category message

/-- Association-list lookup of the record stored under a hash key. -/
def lookupRec (key : String) : DedupState → Option MessageRecord
  | [] => none
  | (k, r) :: rest => if k = key then some r else lookupRec key rest

/-- Association-list insert/replace of the record stored under a key. -/
def insertRec (key : String) (r : MessageRecord) : DedupState → DedupState
  | [] => [(key, r)]
  | (k, v) :: rest =>
    if k = key then (key, r) :: rest else (k, v) :: insertRec key r rest

/-- Modelled from the spec: opportunistic sweep — evict every record
whose `first_seen` is older than the retention threshold, independent
of cooldown state (spec section 4.1, `_cleanup_old_records`). -/
def cleanup_old_records (now : Nat) (s : DedupState) : DedupState :=
  List.filter (fun kr => decide (now - kr.2.first_seen ≤ retention_threshold)) s

/-- Modelled from the spec: the suppression reason carries the resolved
category, the seconds remaining in the cooldown window, and the current
occurrence count (spec section 4.1). -/
structure SuppressReason where
  category : String
  remaining : Nat
  count : Nat
deriving DecidableEq

/-- Modelled from the spec: `should_speak(message, context)` — sweep,
resolve the category, look up the record under the hash key, and either
create a record, treat the call as a fresh occurrence, or suppress
(spec section 4.1).  Returns the `(allowed, reason)` pair together with
the updated, persisted state. -/
def should_speak (now : Nat) (message : String) (ctxCategory : Option String)
    (s : DedupState) : (Bool × Option SuppressReason) × DedupState :=
  let s1 := cleanup_old_records now s
  let category := resolve_category ctxCategory message
  let key := messageKey category message
  let cooldown := category_cooldowns category
  match lookupRec key s1 with
  | none =>
    ((true, none), insertRec key ⟨message, category, now, now, 1⟩ s1)
  | some r =>
    if cooldown ≤ now - r.last_spoken then
      ((true, none),
        insertRec key ⟨message, category, r.first_seen, now, r.count + 1⟩ s1)
    else
      ((false, some ⟨category, cooldown - (now - r.last_spoken), r.count + 1⟩),
        insertRec key ⟨message, category, r.first_seen, r.last_spoken, r.count + 1⟩ s1)

/-- Modelled from the spec: statistics summary exposed by the
deduplicator (`get_stats`): total record count and per-category record
counts (spec sections 4.1 and 8). -/
structure DedupStats where
  total_records : Nat
  by_category : List (String × Nat)
deriving DecidableEq

/-- Modelled from the spec: `get_stats` computed from the record table. -/
def get_stats (s : DedupState) : DedupStats :=
  { total_records := s.length
  , by_category :=
      (s.map (fun kr => kr.2.category)).dedup.map
        (fun c => (c, (List.filter (fun kr => decide (kr.2.category = c)) s).length)) }

/-- Run a sequence of `should_speak` calls for the same message and
context at the given times, threading the state. -/
def run_calls (m : String) (c : Option String) : List Nat → DedupState → DedupState
  | [], s => s
  | t :: ts, s => run_calls m c ts (should_speak t m c s).2

/-! ### Persistence, modelled from the spec

The persisted cache is a text file; an absent, empty, unreadable or
malformed file must be treated as an empty table (spec sections 4.1, 6
and 7).  The file is modelled as `Option String` (`none` = absent or
unreadable) holding one record per line, fields separated by a bar. -/

/-- Split a character list at every occurrence of a separator. -/
def splitChar (sep : Char) : List Char → List (List Char)
  | [] => [[]]
  | c :: rest =>
    let r := splitChar sep rest
    if c == sep then [] :: r
    else
      match r with
      | [] => [[c]]
      | g :: gs => (c :: g) :: gs

/-- Parse a decimal digit. -/
def digitVal (c : Char) : Option Nat :=
  if c.isDigit then some (c.toNat - 48) else none

/-- Accumulating decimal parser over a character list. -/
def parseNatAux : List Char → Nat → Option Nat
  | [], acc => some acc
  | c :: cs, acc =>
    match digitVal c with
    | some d => parseNatAux cs (acc * 10 + d)
    | none => none

/-- Parse a nonempty decimal numeral; anything else is malformed. -/
def parseNat (l : List Char) : Option Nat :=
  if l.isEmpty then none else parseNatAux l 0

/-- Modelled from the spec: parse one persisted record line
`key|text|category|first_seen|last_spoken|count`; any deviation is
malformed. -/
def parseRecordLine (line : List Char) : Option (String × MessageRecord) :=
  match splitChar '|' line with
  | [k, t, c, fs, ls, cnt] =>
    match parseNat fs, parseNat ls, parseNat cnt with
    | some a, some b, some d => some (⟨k⟩, ⟨⟨t⟩, ⟨c⟩, a, b, d⟩)
    | _, _, _ => none
  | _ => none

/-- Modelled from the spec: parse the whole persisted cache file; an
empty file is an empty table, and any malformed line fails the parse. -/
def parseCache (raw : String) : Option DedupState :=
  if raw.data.isEmpty then some []
  else (splitChar '\n' raw.data).mapM parseRecordLine

/-- Modelled from the spec: load the persisted state — an absent or
unreadable file (`none`) or a malformed file resets to the empty table
rather than failing the caller (spec section 7). -/
def load_cache (raw : Option String) : DedupState :=
  match raw with
  | none => []
  | some s => (parseCache s).getD []

/-! ### Queue coordinator, modelled from the spec

The long-lived coordinator process is not under `src/`; its behaviour
is modelled from spec sections 3, 4.2 and 5: entries carry a priority
ordinal and an enqueue sequence number, and the dispatch loop pops the
highest-priority, oldest-enqueued entry each round. -/

/-- Modelled from the spec: the four priority ordinals; lower ordinal
means more urgent (spec section 3). -/
inductive Priority where
  | critical
  | high
  | medium
  | normal
deriving DecidableEq

/-- Numeric ordinal of a priority: lower is more urgent. -/
def Priority.ordinal : Priority → Nat
  | .critical => 0
  | .high => 1
  | .medium => 2
  | .normal => 3

/-- Modelled from the spec: unrecognized priority values map to
`normal` (spec section 4.2). -/
def parse_priority (s : String) : Priority :=
  if s = "critical" then .critical
  else if s = "high" then .high
  else if s = "medium" then .medium
  else .normal

/-- Modelled from the spec: one `QueueEntry` per accepted notification;
`seq` is the enqueue sequence number standing for `enqueued_at` order
(spec section 3). -/
structure QueueEntry where
  message : String
  priority : Priority
  source : String
  seq : Nat
deriving DecidableEq

/-- Dispatch order on entries: priority-major, enqueue-order-minor
(spec section 5). -/
def entryLE (a b : QueueEntry) : Prop :=
  a.priority.ordinal < b.priority.ordinal ∨
    (a.priority.ordinal = b.priority.ordinal ∧ a.seq ≤ b.seq)

instance (a b : QueueEntry) : Decidable (entryLE a b) := by
  unfold entryLE
  infer_instance

/-- Modelled from the spec: build the queue from `(message, priority,
source)` triples in enqueue order, assigning sequence numbers by
position. -/
def enqueue_all (xs : List (String × String × String)) : List QueueEntry :=
  xs.enum.map (fun p => ⟨p.2.1, parse_priority p.2.2.1, p.2.2.2, p.1⟩)

/-- Modelled from the spec: pop the highest-priority, oldest-enqueued
entry, returning it with the remaining queue (spec section 4.2). -/
def popNext : List QueueEntry → Option (QueueEntry × List QueueEntry)
  | [] => none
  | e :: rest =>
    match popNext rest with
    | none => some (e, [])
    | some (m, rest2) =>
      if entryLE e m then some (e, rest) else some (m, e :: rest2)

/-- Fuel-indexed dispatch loop: repeatedly pop the next entry. -/
def drainQueue : Nat → List QueueEntry → List QueueEntry
  | 0, _ => []
  | Nat.succ n, q =>
    match popNext q with
    | none => []
    | some (e, rest) => e :: drainQueue n rest

/-- Modelled from the spec: the order in which the coordinator
dispatches a queue of entries. -/
def dispatch_order (q : List QueueEntry) : List QueueEntry :=
  drainQueue q.length q

/-- Modelled from the spec: the dispatch loop with an explicit speech
collaborator — each popped entry is handed to `speak`; on failure the
entry is logged and dropped and the loop continues (spec section 4.2).
Returns the attempted entries paired with their outcomes. -/
def run_dispatch_loop (speak : QueueEntry → Bool) :
    Nat → List QueueEntry → List (QueueEntry × Bool)
  | 0, _ => []
  | Nat.succ n, q =>
    match popNext q with
    | none => []
    | some (e, rest) => (e, speak e) :: run_dispatch_loop speak n rest

/-- A speech collaborator that fails on every entry. -/
def alwaysFails : QueueEntry → Bool := fun _ => false

/-! ### Metric extraction, translated from
`src/tests/tts/test_metric_extraction.py` -/

/-- The `context` sub-dictionary of a hook event
(`context.get("context", {})`); `none` models an absent key or a
non-dictionary value. -/
structure SubContext where
  files_affected : Option Int
  error_count : Option Int
deriving DecidableEq

/-- The `metrics` sub-dictionary of a hook event. -/
structure MetricData where
  duration_ms : Option Int
  severity : Option String
deriving DecidableEq

/-- The `payload` sub-dictionary of a hook event; each field is `some`
exactly when the corresponding key is present. -/
structure Payload where
  tests_run : Option Int
  tests_passed : Option Int
  files_affected : Option Int
  files_modified : Option Int
  error_occurred : Option Bool
  duration_ms : Option Int
deriving DecidableEq

/-- The `error_info` sub-dictionary of a hook event. -/
structure ErrorInfo where
  has_error : Option Bool
deriving DecidableEq

/-- A hook event context as consumed by `extract_metrics`. -/
structure Ctx where
  context : Option SubContext
  metrics : Option MetricData
  payload : Option Payload
  error_info : Option ErrorInfo
deriving DecidableEq

/-- The metrics dictionary returned by `extract_metrics`. -/
structure Metrics where
  files : Int
  tests : Int
  errors : Int
  duration : Option Int
  items : Int
  changes : Int
deriving DecidableEq

/-- Lowercase a string, as Python `str.lower` over ASCII. -/
def lowerStr (s : String) : String :=
  ⟨s.data.map Char.toLower⟩

/-- The zero-initialised metrics dictionary built at the top of
`extract_metrics`. -/
def metrics_zero : Metrics := ⟨0, 0, 0, none, 0, 0⟩

/-- Translated from `extract_metrics` in
`src/tests/tts/test_metric_extraction.py`, the "Extract from context
field" section. -/
def apply_context (cc : Option SubContext) (m : Metrics) : Metrics :=
  match cc with
  | some ctx => { m with files := ctx.files_affected.getD 0
                       , errors := ctx.error_count.getD 0 }
  | none => m

/-- Translated from `extract_metrics`, the "Extract from metrics
field" section. -/
def apply_metric_data (cm : Option MetricData) (m : Metrics) : Metrics :=
  match cm with
  | some md =>
    let m1 := { m with duration := md.duration_ms }
    if strContains (lowerStr (md.severity.getD "")) "error" then
      { m1 with errors := max m1.errors 1 }
    else m1
  | none => m

/-- Translated from `extract_metrics`, the "Extract from payload"
section: test results, file operations, error tracking, duration, in
source order. -/
def apply_payload (cp : Option Payload) (m : Metrics) : Metrics :=
  match cp with
  | some p =>
    let a := if p.tests_run.isSome then { m with tests := p.tests_run.getD 0 } else m
    let b := if p.tests_passed.isSome then { a with tests := p.tests_passed.getD 0 } else a
    let c := if p.files_affected.isSome then { b with files := p.files_affected.getD 0 } else b
    let d := if p.files_modified.isSome then
               { c with files := max c.files (p.files_modified.getD 0) } else c
    let e := if p.error_occurred.getD false then { d with errors := d.errors + 1 } else d
    if p.duration_ms.isSome then { e with duration := p.duration_ms } else e
  | none => m

/-- Translated from `extract_metrics`, the "Extract from error_info"
section. -/
def apply_error_info (ce : Option ErrorInfo) (m : Metrics) : Metrics :=
  match ce with
  | some ei =>
    if ei.has_error.getD false then { m with errors := max m.errors 1 } else m
  | none => m

/-- Translated from `extract_metrics` in
`src/tests/tts/test_metric_extraction.py`: fold the context, metrics,
payload and error_info sections over the zero-initialised metrics
dictionary, in source order. -/
def extract_metrics (context : Ctx) : Metrics :=
  apply_error_info context.error_info
    (apply_payload context.payload
      (apply_metric_data context.metrics
        (apply_context context.context metrics_zero)))

/-! ### Helper lemmas on the deduplicator state -/

theorem lookupRec_insertRec_self (key : String) (r : MessageRecord) (s : DedupState) :
    lookupRec key (insertRec key r s) = some r := by
  induction s with
  | nil => simp [insertRec, lookupRec]
  | cons kv rest ih =>
    obtain ⟨k, v⟩ := kv
    by_cases h : k = key
    · simp [insertRec, h, lookupRec]
    · simp [insertRec, h, lookupRec, ih]

theorem lookupRec_insertRec_ne (key key2 : String) (r : MessageRecord) (s : DedupState)
    (h : key2 ≠ key) : lookupRec key2 (insertRec key r s) = lookupRec key2 s := by
  induction s with
  | nil => simp [insertRec, lookupRec, Ne.symm h]
  | cons kv rest ih =>
    obtain ⟨k, v⟩ := kv
    by_cases hk : k = key
    · subst hk
      simp [insertRec, lookupRec, Ne.symm h]
    · simp only [insertRec, if_neg hk]
      by_cases hk2 : k = key2
      · simp [lookupRec, hk2]
      · simp [lookupRec, hk2, ih]

theorem lookupRec_mem (key : String) (r : MessageRecord) (s : DedupState)
    (h : lookupRec key s = some r) : (key, r) ∈ s := by
  induction s with
  | nil => simp [lookupRec] at h
  | cons kv rest ih =>
    obtain ⟨k, v⟩ := kv
    by_cases hk : k = key
    · subst hk
      rw [lookupRec, if_pos rfl] at h
      injection h with h
      subst h
      exact List.mem_cons_self _ _
    · rw [lookupRec, if_neg hk] at h
      exact List.mem_cons_of_mem _ (ih h)

theorem mem_insertRec (key : String) (r : MessageRecord) (s : DedupState)
    (x : String × MessageRecord) (h : x ∈ insertRec key r s) :
    x = (key, r) ∨ x ∈ s := by
  induction s with
  | nil => simpa [insertRec] using h
  | cons kv rest ih =>
    obtain ⟨k, v⟩ := kv
    by_cases hk : k = key
    · rw [insertRec, if_pos hk] at h
      rcases List.mem_cons.mp h with h1 | h1
      · exact Or.inl h1
      · exact Or.inr (List.mem_cons_of_mem _ h1)
    · rw [insertRec, if_neg hk] at h
      rcases List.mem_cons.mp h with h1 | h1
      · exact Or.inr (h1 ▸ List.mem_cons_self _ _)
      · rcases ih h1 with h2 | h2
        · exact Or.inl h2
        · exact Or.inr (List.mem_cons_of_mem _ h2)

theorem mem_cleanup (now : Nat) (s : DedupState) (x : String × MessageRecord)
    (h : x ∈ cleanup_old_records now s) :
    x ∈ s ∧ now - x.2.first_seen ≤ retention_threshold := by
  rw [cleanup_old_records] at h
  have := List.mem_filter.mp h
  exact ⟨this.1, by simpa using this.2⟩

theorem lookupRec_cleanup_none (now : Nat) (key : String) (s : DedupState)
    (h : lookupRec key s = none) :
    lookupRec key (cleanup_old_records now s) = none := by
  induction s with
  | nil => simp [cleanup_old_records, lookupRec]
  | cons kv rest ih =>
    obtain ⟨k, v⟩ := kv
    by_cases hk : k = key
    · rw [lookupRec, if_pos hk] at h
      exact absurd h (by simp)
    · rw [lookupRec, if_neg hk] at h
      rw [cleanup_old_records, List.filter_cons]
      by_cases hp : now - v.first_seen ≤ retention_threshold
      · rw [if_pos (by simpa using hp), lookupRec, if_neg hk]
        exact ih h
      · rw [if_neg (by simpa using hp)]
        exact ih h

theorem lookupRec_cleanup_some (now : Nat) (key : String) (r : MessageRecord)
    (s : DedupState) (h : lookupRec key s = some r)
    (hr : now - r.first_seen ≤ retention_threshold) :
    lookupRec key (cleanup_old_records now s) = some r := by
  induction s with
  | nil => simp [lookupRec] at h
  | cons kv rest ih =>
    obtain ⟨k, v⟩ := kv
    by_cases hk : k = key
    · rw [lookupRec, if_pos hk] at h
      injection h with h
      subst h
      rw [cleanup_old_records, List.filter_cons, if_pos (by simpa using hr),
        lookupRec, if_pos hk]
    · rw [lookupRec, if_neg hk] at h
      rw [cleanup_old_records, List.filter_cons]
      by_cases hp : now - v.first_seen ≤ retention_threshold
      · rw [if_pos (by simpa using hp), lookupRec, if_neg hk]
        exact ih h
      · rw [if_neg (by simpa using hp)]
        exact ih h

theorem cooldown_le_retention (c : String) :
    category_cooldowns c ≤ retention_threshold := by
  rw [category_cooldowns, retention_threshold]
  split_ifs <;> omega

/-! ### Branch lemmas for `should_speak` -/

theorem should_speak_not_found (now : Nat) (m : String) (co : Option String)
    (s : DedupState)
    (h : lookupRec (messageKey (resolve_category co m) m)
      (cleanup_old_records now s) = none) :
    should_speak now m co s =
      ((true, none),
        insertRec (messageKey (resolve_category co m) m)
          ⟨m, resolve_category co m, now, now, 1⟩ (cleanup_old_records now s)) := by
  rw [should_speak]
  rw [h]

theorem should_speak_found_fresh (now : Nat) (m : String) (co : Option String)
    (s : DedupState) (r : MessageRecord)
    (h : lookupRec (messageKey (resolve_category co m) m)
      (cleanup_old_records now s) = some r)
    (hc : category_cooldowns (resolve_category co m) ≤ now - r.last_spoken) :
    should_speak now m co s =
      ((true, none),
        insertRec (messageKey (resolve_category co m) m)
          ⟨m, resolve_category co m, r.first_seen, now, r.count + 1⟩
          (cleanup_old_records now s)) := by
  rw [should_speak]
  rw [h]
  simp only [if_pos hc]

theorem should_speak_found_cooldown (now : Nat) (m : String) (co : Option String)
    (s : DedupState) (r : MessageRecord)
    (h : lookupRec (messageKey (resolve_category co m) m)
      (cleanup_old_records now s) = some r)
    (hc : now - r.last_spoken < category_cooldowns (resolve_category co m)) :
    should_speak now m co s =
      ((false, some ⟨resolve_category co m,
          category_cooldowns (resolve_category co m) - (now - r.last_spoken),
          r.count + 1⟩),
        insertRec (messageKey (resolve_category co m) m)
          ⟨m, resolve_category co m, r.first_seen, r.last_spoken, r.count + 1⟩
          (cleanup_old_records now s)) := by
  rw [should_speak]
  rw [h]
  simp only [if_neg (Nat.not_le.mpr hc)]

/-- Repeated suppressed calls: while every call time stays inside the
cooldown window opened at `t0`, the record keeps `first_seen = t0` and
`last_spoken = t0` and its count grows by one per call. -/
theorem run_calls_suppressed (m c : String) (t0 : Nat) (ts : List Nat) :
    ∀ k : Nat, ∀ s : DedupState,
    lookupRec (messageKey c m) s = some ⟨m, c, t0, t0, k⟩ →
    (∀ t ∈ ts, t0 ≤ t ∧ t - t0 < category_cooldowns c) →
    lookupRec (messageKey c m) (run_calls m (some c) ts s) =
      some ⟨m, c, t0, t0, k + ts.length⟩ := by
  induction ts with
  | nil =>
    intro k s h _
    simpa [run_calls] using h
  | cons t ts ih =>
    intro k s h hts
    have ht := hts t (List.mem_cons_self t ts)
    have hret : t - t0 ≤ retention_threshold := by
      have := cooldown_le_retention c
      omega
    have h1 : lookupRec (messageKey c m) (cleanup_old_records t s) =
        some ⟨m, c, t0, t0, k⟩ :=
      lookupRec_cleanup_some t _ _ s h hret
    have hco : t - (⟨m, c, t0, t0, k⟩ : MessageRecord).last_spoken <
        category_cooldowns (resolve_category (some c) m) := ht.2
    rw [run_calls, should_speak_found_cooldown t m (some c) s _ h1 hco]
    have h2 := lookupRec_insertRec_self
      (messageKey (resolve_category (some c) m) m)
      (⟨m, resolve_category (some c) m,
        (⟨m, c, t0, t0, k⟩ : MessageRecord).first_seen,
        (⟨m, c, t0, t0, k⟩ : MessageRecord).last_spoken, k + 1⟩ : MessageRecord)
      (cleanup_old_records t s)
    have h3 := ih (k + 1) _ h2 (fun u hu => hts u (List.mem_cons_of_mem t hu))
    rw [h3]
    have : k + 1 + ts.length = k + (t :: ts).length := by
      simp [List.length_cons]
      omega
    rw [this]

/-! ### Helper lemmas on the queue coordinator -/

theorem entryLE_refl (a : QueueEntry) : entryLE a a :=
  Or.inr ⟨rfl, le_refl _⟩

theorem entryLE_trans (a b c : QueueEntry) (h1 : entryLE a b) (h2 : entryLE b c) :
    entryLE a c := by
  rw [entryLE] at *
  omega

theorem entryLE_total (a b : QueueEntry) : entryLE a b ∨ entryLE b a := by
  rw [entryLE, entryLE]
  omega

theorem popNext_eq_none (q : List QueueEntry) (h : popNext q = none) : q = [] := by
  cases q with
  | nil => rfl
  | cons a as =>
    rw [popNext] at h
    cases hp : popNext as with
    | none =>
      rw [hp] at h
      exact absurd h (by simp)
    | some p =>
      obtain ⟨m, r2⟩ := p
      rw [hp] at h
      by_cases hle : entryLE a m <;> simp [hle] at h

theorem popNext_spec (q : List QueueEntry) (e : QueueEntry) (rest : List QueueEntry)
    (h : popNext q = some (e, rest)) :
    (∀ x ∈ q, entryLE e x) ∧ (e :: rest).Perm q := by
  induction q generalizing e rest with
  | nil => simp [popNext] at h
  | cons a as ih =>
    rw [popNext] at h
    cases hp : popNext as with
    | none =>
      have has : as = [] := popNext_eq_none as hp
      subst has
      rw [hp] at h
      injection h with h
      injection h with h1 h2
      subst h1
      subst h2
      refine ⟨?_, List.Perm.refl _⟩
      intro x hx
      rcases List.mem_cons.mp hx with h1 | h1
      · exact h1 ▸ entryLE_refl _
      · simp at h1
    | some p =>
      obtain ⟨mm, rest2⟩ := p
      rw [hp] at h
      obtain ⟨hmin, hperm⟩ := ih mm rest2 hp
      have h9 : (if entryLE a mm then some (a, as) else some (mm, a :: rest2)) =
          some (e, rest) := h
      by_cases hle : entryLE a mm
      · rw [if_pos hle] at h9
        injection h9 with h9
        injection h9 with h1 h2
        subst h1
        subst h2
        refine ⟨?_, List.Perm.refl _⟩
        intro x hx
        rcases List.mem_cons.mp hx with h1 | h1
        · exact h1 ▸ entryLE_refl _
        · exact entryLE_trans _ mm x hle (hmin x h1)
      · rw [if_neg hle] at h9
        injection h9 with h9
        injection h9 with h1 h2
        subst h1
        subst h2
        have hma : entryLE mm a := (entryLE_total a mm).resolve_left hle
        constructor
        · intro x hx
          rcases List.mem_cons.mp hx with h1 | h1
          · exact h1 ▸ hma
          · exact hmin x h1
        · exact (List.Perm.swap a mm rest2).trans (List.Perm.cons a hperm)

theorem popNext_length (q : List QueueEntry) (e : QueueEntry)
    (rest : List QueueEntry) (h : popNext q = some (e, rest)) :
    rest.length + 1 = q.length := by
  have := (popNext_spec q e rest h).2.length_eq
  simpa using this

theorem drainQueue_spec (n : Nat) :
    ∀ q : List QueueEntry, q.length ≤ n →
    (drainQueue n q).Perm q ∧ List.Sorted entryLE (drainQueue n q) := by
  induction n with
  | zero =>
    intro q hq
    have : q = [] := List.length_eq_zero.mp (Nat.le_zero.mp hq)
    subst this
    simp [drainQueue]
  | succ n ih =>
    intro q hq
    rw [drainQueue]
    cases hp : popNext q with
    | none =>
      have : q = [] := popNext_eq_none q hp
      subst this
      simp
    | some p =>
      obtain ⟨e, rest⟩ := p
      obtain ⟨hmin, hperm⟩ := popNext_spec q e rest hp
      have hlen : rest.length ≤ n := by
        have := popNext_length q e rest hp
        omega
      obtain ⟨ihp, ihs⟩ := ih rest hlen
      constructor
      · exact (List.Perm.cons e ihp).trans hperm
      · rw [List.sorted_cons]
        refine ⟨?_, ihs⟩
        intro b hb
        have hbq : b ∈ q := hperm.subset (List.mem_cons_of_mem e (ihp.subset hb))
        exact hmin b hbq

theorem run_dispatch_loop_fst (speak : QueueEntry → Bool) (n : Nat) :
    ∀ q : List QueueEntry,
    (run_dispatch_loop speak n q).map Prod.fst = drainQueue n q := by
  induction n with
  | zero => intro q; simp [run_dispatch_loop, drainQueue]
  | succ n ih =>
    intro q
    rw [run_dispatch_loop, drainQueue]
    cases hp : popNext q with
    | none => simp
    | some p =>
      obtain ⟨e, rest⟩ := p
      simp [ih rest]

/-! ### Claim theorems -/

/-- C1: for every non-empty message and category, the first call to
`should_speak` (no record exists yet for the resulting hash key)
creates a record with `count = 1` and `last_spoken = now` and returns
`(true, none)`. -/
theorem first_call_creates_record_and_speaks (now : Nat) (m c : String)
    (s : DedupState) (_hm : m ≠ "")
    (h : lookupRec (messageKey c m) s = none) :
    (should_speak now m (some c) s).1 = (true, none) ∧
    lookupRec (messageKey c m) (should_speak now m (some c) s).2 =
      some ⟨m, c, now, now, 1⟩ := by
  have h1 : lookupRec (messageKey (resolve_category (some c) m) m)
      (cleanup_old_records now s) = none := lookupRec_cleanup_none now _ s h
  rw [should_speak_not_found now m (some c) s h1]
  exact ⟨rfl, lookupRec_insertRec_self _ _ _⟩

/-- Witness for C1 at a concrete input. -/
theorem first_call_creates_record_and_speaks_witness :
    ("build done" : String) ≠ "" ∧
    lookupRec (messageKey "general" "build done") ([] : DedupState) = none ∧
    ((should_speak 5 "build done" (some "general") ([] : DedupState)).1 =
        (true, none) ∧
      lookupRec (messageKey "general" "build done")
        (should_speak 5 "build done" (some "general") ([] : DedupState)).2 =
        some ⟨"build done", "general", 5, 5, 1⟩) :=
  ⟨by decide, by decide,
    first_call_creates_record_and_speaks 5 "build done" "general" []
      (by decide) (by decide)⟩

/-- C2: a repeat call inside the cooldown window is suppressed: it
returns `false` with a reason carrying the category, a positive
remaining-seconds value and the current (incremented) count; the record
count is incremented while `last_spoken` is left unchanged. -/
theorem repeat_within_cooldown_suppressed (now : Nat) (m c : String)
    (s : DedupState) (r : MessageRecord)
    (h : lookupRec (messageKey c m) (cleanup_old_records now s) = some r)
    (hc : now - r.last_spoken < category_cooldowns c) :
    (should_speak now m (some c) s).1.1 = false ∧
    (should_speak now m (some c) s).1.2 =
      some ⟨c, category_cooldowns c - (now - r.last_spoken), r.count + 1⟩ ∧
    0 < category_cooldowns c - (now - r.last_spoken) ∧
    lookupRec (messageKey c m) (should_speak now m (some c) s).2 =
      some ⟨m, c, r.first_seen, r.last_spoken, r.count + 1⟩ := by
  rw [should_speak_found_cooldown now m (some c) s r h hc]
  exact ⟨rfl, rfl, by omega, lookupRec_insertRec_self _ _ _⟩

/-- Witness for C2 at a concrete input: a record spoken at time 0 is
suppressed at time 30 for category `error` (cooldown 60s), reporting
30 remaining seconds and count 2. -/
theorem repeat_within_cooldown_suppressed_witness :
    lookupRec (messageKey "error" "build failed")
      (cleanup_old_records 30
        [(messageKey "error" "build failed",
          (⟨"build failed", "error", 0, 0, 1⟩ : MessageRecord))]) =
      some ⟨"build failed", "error", 0, 0, 1⟩ ∧
    (30 : Nat) - 0 < category_cooldowns "error" ∧
    ((should_speak 30 "build failed" (some "error")
        [(messageKey "error" "build failed",
          (⟨"build failed", "error", 0, 0, 1⟩ : MessageRecord))]).1.1 = false ∧
      (should_speak 30 "build failed" (some "error")
        [(messageKey "error" "build failed",
          (⟨"build failed", "error", 0, 0, 1⟩ : MessageRecord))]).1.2 =
        some ⟨"error", 30, 2⟩ ∧
      (0 : Nat) < 30 ∧
      lookupRec (messageKey "error" "build failed")
        (should_speak 30 "build failed" (some "error")
          [(messageKey "error" "build failed",
            (⟨"build failed", "error", 0, 0, 1⟩ : MessageRecord))]).2 =
        some ⟨"build failed", "error", 0, 0, 2⟩) :=
  ⟨by decide, by decide,
    repeat_within_cooldown_suppressed 30 "build failed" "error"
      [(messageKey "error" "build failed", ⟨"build failed", "error", 0, 0, 1⟩)]
      ⟨"build failed", "error", 0, 0, 1⟩ (by decide) (by decide)⟩

/-- C3: a repeat call at or after the end of the cooldown window is
treated as a fresh occurrence: it returns `(true, none)`, updates
`last_spoken` to `now` and increments `count`. -/
theorem repeat_after_cooldown_speaks (now : Nat) (m c : String)
    (s : DedupState) (r : MessageRecord)
    (h : lookupRec (messageKey c m) (cleanup_old_records now s) = some r)
    (hc : category_cooldowns c ≤ now - r.last_spoken) :
    (should_speak now m (some c) s).1 = (true, none) ∧
    lookupRec (messageKey c m) (should_speak now m (some c) s).2 =
      some ⟨m, c, r.first_seen, now, r.count + 1⟩ := by
  rw [should_speak_found_fresh now m (some c) s r h hc]
  exact ⟨rfl, lookupRec_insertRec_self _ _ _⟩

/-- Witness for C3 at a concrete input: a record spoken at time 0 is
allowed again at time 61 for category `error` (cooldown 60s). -/
theorem repeat_after_cooldown_speaks_witness :
    lookupRec (messageKey "error" "build failed")
      (cleanup_old_records 61
        [(messageKey "error" "build failed",
          (⟨"build failed", "error", 0, 0, 1⟩ : MessageRecord))]) =
      some ⟨"build failed", "error", 0, 0, 1⟩ ∧
    category_cooldowns "error" ≤ (61 : Nat) - 0 ∧
    ((should_speak 61 "build failed" (some "error")
        [(messageKey "error" "build failed",
          (⟨"build failed", "error", 0, 0, 1⟩ : MessageRecord))]).1 =
        (true, none) ∧
      lookupRec (messageKey "error" "build failed")
        (should_speak 61 "build failed" (some "error")
          [(messageKey "error" "build failed",
            (⟨"build failed", "error", 0, 0, 1⟩ : MessageRecord))]).2 =
        some ⟨"build failed", "error", 0, 61, 2⟩) :=
  ⟨by decide, by decide,
    repeat_after_cooldown_speaks 61 "build failed" "error"
      [(messageKey "error" "build failed", ⟨"build failed", "error", 0, 0, 1⟩)]
      ⟨"build failed", "error", 0, 0, 1⟩ (by decide) (by decide)⟩

/-- C4 counterexample: the hash key `category ++ ":" ++ normalize m`
is not injective in the pair `(category, normalized text)` — the pairs
`("a:b", "c")` and `("a", "b:c")` differ yet share the key `"a:b:c"`,
so the second first-occurrence call is suppressed instead of returning
`(true, none)`. -/
theorem colliding_keys_cross_pair_suppression :
    ("a:b", normalize "c") ≠ ("a", normalize "b:c") ∧
    messageKey "a:b" "c" = messageKey "a" "b:c" ∧
    (should_speak 0 "c" (some "a:b") []).1 = (true, none) ∧
    (should_speak 0 "b:c" (some "a")
      ((should_speak 0 "c" (some "a:b") []).2)).1.1 = false := by
  decide

/-- C4 (amended): the deduplication decision depends on the message
only through its normalized text; two calls with equal category and
equal normalized text hit the same record, so the second within the
cooldown is suppressed; and two calls whose combined key strings
`category ++ ":" ++ normalized text` differ hit distinct records and
never suppress each other — both return `(true, none)` on first
occurrence. -/
theorem dedup_decision_depends_on_key :
    (∀ now : Nat, ∀ m1 m2 c : String, ∀ s : DedupState,
      normalize m1 = normalize m2 →
      (should_speak now m1 (some c) s).1 = (should_speak now m2 (some c) s).1) ∧
    (∀ t0 t1 : Nat, ∀ m1 m2 c : String, ∀ s : DedupState,
      normalize m1 = normalize m2 →
      lookupRec (messageKey c m1) s = none →
      t1 - t0 < category_cooldowns c →
      (should_speak t1 m2 (some c)
        ((should_speak t0 m1 (some c) s).2)).1.1 = false) ∧
    (∀ t0 t1 : Nat, ∀ m1 c1 m2 c2 : String, ∀ s : DedupState,
      messageKey c1 m1 ≠ messageKey c2 m2 →
      lookupRec (messageKey c1 m1) s = none →
      lookupRec (messageKey c2 m2) s = none →
      (should_speak t0 m1 (some c1) s).1 = (true, none) ∧
      (should_speak t1 m2 (some c2)
        ((should_speak t0 m1 (some c1) s).2)).1 = (true, none)) := by
  refine ⟨?_, ?_, ?_⟩
  · intro now m1 m2 c s hnorm
    have hk : messageKey c m1 = messageKey c m2 := by
      rw [messageKey, messageKey, hnorm]
    cases hl : lookupRec (messageKey c m2) (cleanup_old_records now s) with
    | none =>
      have hl1 : lookupRec (messageKey (resolve_category (some c) m1) m1)
          (cleanup_old_records now s) = none := by
        show lookupRec (messageKey c m1) (cleanup_old_records now s) = none
        rw [hk]
        exact hl
      rw [should_speak_not_found now m1 (some c) s hl1,
        should_speak_not_found now m2 (some c) s hl]
    | some r =>
      have hl1 : lookupRec (messageKey (resolve_category (some c) m1) m1)
          (cleanup_old_records now s) = some r := by
        show lookupRec (messageKey c m1) (cleanup_old_records now s) = some r
        rw [hk]
        exact hl
      by_cases hcd : category_cooldowns c ≤ now - r.last_spoken
      · rw [should_speak_found_fresh now m1 (some c) s r hl1 hcd,
          should_speak_found_fresh now m2 (some c) s r hl hcd]
      · have hcd2 : now - r.last_spoken < category_cooldowns c := Nat.not_le.mp hcd
        rw [should_speak_found_cooldown now m1 (some c) s r hl1 hcd2,
          should_speak_found_cooldown now m2 (some c) s r hl hcd2]
        rfl
  · intro t0 t1 m1 m2 c s hnorm h0 hc
    have hk : messageKey c m1 = messageKey c m2 := by
      rw [messageKey, messageKey, hnorm]
    have h1 : lookupRec (messageKey (resolve_category (some c) m1) m1)
        (cleanup_old_records t0 s) = none := lookupRec_cleanup_none t0 _ s h0
    rw [should_speak_not_found t0 m1 (some c) s h1]
    have h2 := lookupRec_insertRec_self
      (messageKey (resolve_category (some c) m1) m1)
      ⟨m1, resolve_category (some c) m1, t0, t0, 1⟩
      (cleanup_old_records t0 s)
    have hret : t1 - t0 ≤ retention_threshold := by
      have := cooldown_le_retention c
      omega
    have h3 : lookupRec (messageKey (resolve_category (some c) m2) m2)
        (cleanup_old_records t1
          (insertRec (messageKey (resolve_category (some c) m1) m1)
            ⟨m1, resolve_category (some c) m1, t0, t0, 1⟩
            (cleanup_old_records t0 s))) =
        some ⟨m1, resolve_category (some c) m1, t0, t0, 1⟩ := by
      show lookupRec (messageKey c m2) _ = _
      rw [← hk]
      exact lookupRec_cleanup_some t1 _ _ _ h2 hret
    rw [should_speak_found_cooldown t1 m2 (some c) _ _ h3 hc]
  · intro t0 t1 m1 c1 m2 c2 s hkey h1 h2
    have ha1 : lookupRec (messageKey (resolve_category (some c1) m1) m1)
        (cleanup_old_records t0 s) = none := lookupRec_cleanup_none t0 _ s h1
    rw [should_speak_not_found t0 m1 (some c1) s ha1]
    refine ⟨rfl, ?_⟩
    have hb1 : lookupRec (messageKey c2 m2)
        (insertRec (messageKey (resolve_category (some c1) m1) m1)
          ⟨m1, resolve_category (some c1) m1, t0, t0, 1⟩
          (cleanup_old_records t0 s)) =
        lookupRec (messageKey c2 m2) (cleanup_old_records t0 s) :=
      lookupRec_insertRec_ne _ _ _ _ (Ne.symm hkey)
    have hb2 : lookupRec (messageKey c2 m2)
        (cleanup_old_records t1
          (insertRec (messageKey (resolve_category (some c1) m1) m1)
            ⟨m1, resolve_category (some c1) m1, t0, t0, 1⟩
            (cleanup_old_records t0 s))) = none := by
      apply lookupRec_cleanup_none
      rw [hb1]
      exact lookupRec_cleanup_none t0 _ s h2
    rw [should_speak_not_found t1 m2 (some c2) _ hb2]

/-- Witness for the amended C4 at a concrete input: two different
combined keys both speak on first occurrence. -/
theorem dedup_decision_depends_on_key_witness :
    messageKey "session_completion" "done in a" ≠ messageKey "error" "boom" ∧
    lookupRec (messageKey "session_completion" "done in a") ([] : DedupState) = none ∧
    lookupRec (messageKey "error" "boom") ([] : DedupState) = none ∧
    ((should_speak 0 "done in a" (some "session_completion")
        ([] : DedupState)).1 = (true, none) ∧
      (should_speak 1 "boom" (some "error")
        ((should_speak 0 "done in a" (some "session_completion")
          ([] : DedupState)).2)).1 = (true, none)) :=
  ⟨by decide, by decide, by decide,
    dedup_decision_depends_on_key.2.2 0 1 "done in a" "session_completion"
      "boom" "error" [] (by decide) (by decide) (by decide)⟩

/-- C5: with N calls for the same message and category all inside the
cooldown window opened at the first call (and inside the retention
window), the record count equals N and `last_spoken` stays at the time
of the first (only allowed) call; moreover, on any single call whose
record survives the sweep, the count grows by exactly one and a
suppressed call leaves `last_spoken` unchanged. -/
theorem count_tracks_calls_within_window (m c : String) (t0 : Nat)
    (ts : List Nat) (s : DedupState)
    (h : lookupRec (messageKey c m) s = none)
    (hts : ∀ t ∈ ts, t0 ≤ t ∧ t - t0 < category_cooldowns c) :
    lookupRec (messageKey c m) (run_calls m (some c) (t0 :: ts) s) =
      some ⟨m, c, t0, t0, ts.length + 1⟩ ∧
    (∀ now : Nat, ∀ m2 c2 : String, ∀ s2 : DedupState, ∀ r : MessageRecord,
      lookupRec (messageKey c2 m2) (cleanup_old_records now s2) = some r →
      ∃ r2 : MessageRecord,
        lookupRec (messageKey c2 m2) (should_speak now m2 (some c2) s2).2 =
          some r2 ∧
        r2.count = r.count + 1 ∧
        ((should_speak now m2 (some c2) s2).1.1 = false →
          r2.last_spoken = r.last_spoken)) := by
  constructor
  · rw [run_calls]
    have h1 : lookupRec (messageKey (resolve_category (some c) m) m)
        (cleanup_old_records t0 s) = none := lookupRec_cleanup_none t0 _ s h
    rw [should_speak_not_found t0 m (some c) s h1]
    have h2 := lookupRec_insertRec_self
      (messageKey (resolve_category (some c) m) m)
      ⟨m, resolve_category (some c) m, t0, t0, 1⟩
      (cleanup_old_records t0 s)
    have h3 := run_calls_suppressed m c t0 ts 1 _ h2 hts
    rw [h3, Nat.add_comm 1 ts.length]
  · intro now m2 c2 s2 r hr
    by_cases hc2 : category_cooldowns c2 ≤ now - r.last_spoken
    · refine ⟨⟨m2, c2, r.first_seen, now, r.count + 1⟩, ?_, rfl, ?_⟩
      · rw [should_speak_found_fresh now m2 (some c2) s2 r hr hc2]
        exact lookupRec_insertRec_self _ _ _
      · rw [should_speak_found_fresh now m2 (some c2) s2 r hr hc2]
        intro hfalse
        simp at hfalse
    · have hc3 : now - r.last_spoken < category_cooldowns c2 := Nat.not_le.mp hc2
      refine ⟨⟨m2, c2, r.first_seen, r.last_spoken, r.count + 1⟩, ?_, rfl,
        fun _ => rfl⟩
      rw [should_speak_found_cooldown now m2 (some c2) s2 r hr hc3]
      exact lookupRec_insertRec_self _ _ _

/-- Witness for C5 at a concrete input: three calls at times 0, 1, 2
leave a single record with count 3 and `last_spoken` 0. -/
theorem count_tracks_calls_within_window_witness :
    lookupRec (messageKey "general" "dup") ([] : DedupState) = none ∧
    lookupRec (messageKey "general" "dup")
      (run_calls "dup" (some "general") [0, 1, 2] ([] : DedupState)) =
      some ⟨"dup", "general", 0, 0, 3⟩ :=
  ⟨by decide,
    (count_tracks_calls_within_window "dup" "general" 0 [1, 2] []
      (by decide) (by decide)).1⟩

/-- C6: every `should_speak` call sweeps expired records first — after
any call no record whose `first_seen` is older than the retention
threshold remains in the state, any such pre-existing record is gone,
and `get_stats` counts only records inside the retention window. -/
theorem sweep_evicts_expired_records (now : Nat) (m : String)
    (co : Option String) (s : DedupState) :
    (∀ k : String, ∀ r : MessageRecord, (k, r) ∈ (should_speak now m co s).2 →
      now - r.first_seen ≤ retention_threshold) ∧
    (∀ k : String, ∀ r : MessageRecord, (k, r) ∈ s →
      retention_threshold < now - r.first_seen →
      (k, r) ∉ (should_speak now m co s).2) ∧
    (get_stats (should_speak now m co s).2).total_records =
      (List.filter (fun kr => decide (now - kr.2.first_seen ≤ retention_threshold))
        (should_speak now m co s).2).length := by
  have main : ∀ k : String, ∀ r : MessageRecord,
      (k, r) ∈ (should_speak now m co s).2 →
      now - r.first_seen ≤ retention_threshold := by
    intro k r hmem
    cases hl : lookupRec (messageKey (resolve_category co m) m)
        (cleanup_old_records now s) with
    | none =>
      rw [should_speak_not_found now m co s hl] at hmem
      rcases mem_insertRec _ _ _ _ hmem with h1 | h1
      · rw [Prod.mk.injEq] at h1
        rw [h1.2]
        simp
      · exact (mem_cleanup now s _ h1).2
    | some r0 =>
      have hr0 : (messageKey (resolve_category co m) m, r0) ∈
          cleanup_old_records now s := lookupRec_mem _ _ _ hl
      have hb := (mem_cleanup now s _ hr0).2
      by_cases hcd : category_cooldowns (resolve_category co m) ≤
          now - r0.last_spoken
      · rw [should_speak_found_fresh now m co s r0 hl hcd] at hmem
        rcases mem_insertRec _ _ _ _ hmem with h1 | h1
        · rw [Prod.mk.injEq] at h1
          rw [h1.2]
          exact hb
        · exact (mem_cleanup now s _ h1).2
      · have hcd2 : now - r0.last_spoken <
            category_cooldowns (resolve_category co m) := Nat.not_le.mp hcd
        rw [should_speak_found_cooldown now m co s r0 hl hcd2] at hmem
        rcases mem_insertRec _ _ _ _ hmem with h1 | h1
        · rw [Prod.mk.injEq] at h1
          rw [h1.2]
          exact hb
        · exact (mem_cleanup now s _ h1).2
  refine ⟨main, ?_, ?_⟩
  · intro k r _ hold hpost
    exact absurd (main k r hpost) (by omega)
  · have hfix : List.filter
        (fun kr => decide (now - kr.2.first_seen ≤ retention_threshold))
        (should_speak now m co s).2 = (should_speak now m co s).2 := by
      apply List.filter_eq_self.mpr
      intro x hx
      simpa using main x.1 x.2 hx
    rw [get_stats, hfix]

/-- Witness for C6 at a concrete input: a record first seen at time 0
is absent after a `should_speak` call at time 4000. -/
theorem sweep_evicts_expired_records_witness :
    (messageKey "general" "old",
      (⟨"old", "general", 0, 0, 1⟩ : MessageRecord)) ∈
      ([(messageKey "general" "old",
        (⟨"old", "general", 0, 0, 1⟩ : MessageRecord))] : DedupState) ∧
    retention_threshold < (4000 : Nat) - 0 ∧
    (messageKey "general" "old",
      (⟨"old", "general", 0, 0, 1⟩ : MessageRecord)) ∉
      (should_speak 4000 "fresh" (some "general")
        [(messageKey "general" "old",
          (⟨"old", "general", 0, 0, 1⟩ : MessageRecord))]).2 :=
  ⟨by decide, by decide,
    (sweep_evicts_expired_records 4000 "fresh" (some "general")
      [(messageKey "general" "old", ⟨"old", "general", 0, 0, 1⟩)]).2.1
      (messageKey "general" "old") ⟨"old", "general", 0, 0, 1⟩
      (by decide) (by decide)⟩

/-- C7: an absent, empty or malformed persisted cache file loads as the
empty record table, and `should_speak` on the loaded state still
returns a normal result — the first call answers `(true, none)` for
any message and category. -/
theorem corrupt_cache_resets_to_empty (raw : String)
    (h : parseCache raw = none) :
    load_cache none = [] ∧
    load_cache (some "") = [] ∧
    load_cache (some raw) = [] ∧
    (∀ now : Nat, ∀ m c : String,
      (should_speak now m (some c) (load_cache (some raw))).1 = (true, none)) := by
  refine ⟨rfl, by decide, ?_, ?_⟩
  · rw [load_cache, h]
    rfl
  · intro now m c
    have hload : load_cache (some raw) = [] := by
      rw [load_cache, h]
      rfl
    rw [hload]
    have h1 : lookupRec (messageKey (resolve_category (some c) m) m)
        (cleanup_old_records now ([] : DedupState)) = none := rfl
    rw [should_speak_not_found now m (some c) [] h1]

/-- Witness for C7 at a concrete input: the malformed cache content
`"not a cache line"` resets to the empty table and the next call
speaks. -/
theorem corrupt_cache_resets_to_empty_witness :
    parseCache "not a cache line" = none ∧
    load_cache (some "not a cache line") = [] ∧
    (should_speak 3 "hello" (some "general")
      (load_cache (some "not a cache line"))).1 = (true, none) :=
  ⟨by decide,
    (corrupt_cache_resets_to_empty "not a cache line" (by decide)).2.2.1,
    (corrupt_cache_resets_to_empty "not a cache line" (by decide)).2.2.2
      3 "hello" "general"⟩

/-- C8: the coordinator dispatches queued entries in priority-major
order with FIFO tie-breaking inside a tier (the dispatch order is a
permutation of the queue sorted by `entryLE`); in particular entries
enqueued in order [normal, critical, high] dispatch in order
[critical, high, normal]. -/
theorem dispatch_priority_major_fifo :
    (∀ q : List QueueEntry,
      (dispatch_order q).Perm q ∧ List.Sorted entryLE (dispatch_order q)) ∧
    dispatch_order (enqueue_all
      [("first", "normal", "hook1"), ("second", "critical", "hook2"),
        ("third", "high", "hook3")]) =
      [⟨"second", Priority.critical, "hook2", 1⟩,
        ⟨"third", Priority.high, "hook3", 2⟩,
        ⟨"first", Priority.normal, "hook1", 0⟩] := by
  constructor
  · intro q
    rw [dispatch_order]
    exact drainQueue_spec q.length q (le_refl _)
  · decide

/-- Witness for C8 at a concrete input: the dispatch order of a
two-entry queue is a permutation of it. -/
theorem dispatch_priority_major_fifo_witness :
    (dispatch_order
      [(⟨"a", Priority.normal, "s", 0⟩ : QueueEntry),
        ⟨"b", Priority.critical, "s", 1⟩]).Perm
      [⟨"a", Priority.normal, "s", 0⟩, ⟨"b", Priority.critical, "s", 1⟩] :=
  (dispatch_priority_major_fifo.1
    [⟨"a", Priority.normal, "s", 0⟩, ⟨"b", Priority.critical, "s", 1⟩]).1

/-- C9: the sequence of entries the dispatch loop attempts does not
depend on the outcomes of the speech invocations — a failing entry is
dropped and the loop continues — so every queued entry is still
dispatched. -/
theorem failing_entry_never_stalls_queue :
    (∀ speak : QueueEntry → Bool, ∀ q : List QueueEntry,
      (run_dispatch_loop speak q.length q).map Prod.fst = dispatch_order q) ∧
    (∀ speak : QueueEntry → Bool, ∀ q : List QueueEntry, ∀ e ∈ q,
      e ∈ (run_dispatch_loop speak q.length q).map Prod.fst) := by
  have h1 : ∀ speak : QueueEntry → Bool, ∀ q : List QueueEntry,
      (run_dispatch_loop speak q.length q).map Prod.fst = dispatch_order q := by
    intro speak q
    rw [dispatch_order]
    exact run_dispatch_loop_fst speak q.length q
  refine ⟨h1, ?_⟩
  intro speak q e he
  rw [h1 speak q, dispatch_order]
  exact ((drainQueue_spec q.length q (le_refl _)).1.mem_iff).mpr he

/-- Witness for C9 at a concrete input: with a speech collaborator that
fails on every entry, the attempted sequence still equals the dispatch
order. -/
theorem failing_entry_never_stalls_queue_witness :
    (run_dispatch_loop alwaysFails
      (List.length [(⟨"a", Priority.normal, "s", 0⟩ : QueueEntry),
        ⟨"b", Priority.critical, "s", 1⟩])
      [⟨"a", Priority.normal, "s", 0⟩, ⟨"b", Priority.critical, "s", 1⟩]).map
      Prod.fst =
      dispatch_order
        [⟨"a", Priority.normal, "s", 0⟩, ⟨"b", Priority.critical, "s", 1⟩] :=
  failing_entry_never_stalls_queue.1 alwaysFails
    [⟨"a", Priority.normal, "s", 0⟩, ⟨"b", Priority.critical, "s", 1⟩]

theorem apply_payload_tests (p : Payload) (t : Int) (m : Metrics)
    (ht : p.tests_passed = some t) :
    (apply_payload (some p) m).tests = t := by
  rw [apply_payload]
  simp only [ht, Option.isSome_some, Option.getD_some, if_true]
  split_ifs <;> rfl

theorem apply_error_info_tests (ce : Option ErrorInfo) (m : Metrics) :
    (apply_error_info ce m).tests = m.tests := by
  cases ce with
  | none => rfl
  | some ei =>
    rw [apply_error_info]
    split_ifs <;> rfl

/-- C10: when the payload contains both `tests_run` and `tests_passed`,
`extract_metrics` reports `tests` equal to `tests_passed` — the
passed-count assignment unconditionally overwrites the run count. -/
theorem tests_passed_overwrites_tests_run (ctx : Ctx) (p : Payload) (t : Int)
    (hp : ctx.payload = some p) (_hr : p.tests_run.isSome = true)
    (ht : p.tests_passed = some t) :
    (extract_metrics ctx).tests = t := by
  rw [extract_metrics, hp, apply_error_info_tests, apply_payload_tests p t _ ht]

/-- Witness for C10 at a concrete input: a payload with 12 tests run
and 7 passed reports 7 tests. -/
theorem tests_passed_overwrites_tests_run_witness :
    (Ctx.mk none none (some (Payload.mk (some 12) (some 7) none none none none))
      none).payload =
      some (Payload.mk (some 12) (some 7) none none none none) ∧
    (Payload.mk (some 12) (some 7) none none none none :
      Payload).tests_run.isSome = true ∧
    (Payload.mk (some 12) (some 7) none none none none :
      Payload).tests_passed = some 7 ∧
    (extract_metrics (Ctx.mk none none
      (some (Payload.mk (some 12) (some 7) none none none none)) none)).tests = 7 :=
  ⟨rfl, rfl, rfl,
    tests_passed_overwrites_tests_run _ _ 7 rfl rfl rfl⟩

end TTS
